import Mathlib

/-! Verification of the discord.wafer.space archive pipeline.

Shallow embedding of the core of the repository:

* `scripts/channel_classifier.py` — channel classification and thread-name
  sanitisation (`classify_channel`, `sanitize_thread_name`);
* `scripts/state.py` — the tracking-state store (`update_channel`,
  `update_thread_state`, `update_forum_index_timestamp`,
  `get_channel_state`, `get_thread_state`);
* `scripts/merge_state.py` — the snapshot merger (`parse_timestamp`,
  `merge_thread_data`, `merge_forum_data`, `merge_channel_data`,
  `merge_server_data`, `merge_states`);
* `scripts/export_channels.py` — the export orchestration loop
  (`should_include_channel`, `format_export_command`,
  `_determine_export_location`, `_get_last_export_timestamp`,
  `_export_channel_formats`, `_update_channel_state_after_export`,
  `_process_single_channel`);
* `scripts/organize_exports.py` — the consolidation step
  (`_copy_to_month_directory`).

Python strings are modelled as `String`/`List Char`, dicts as ordered
association lists (`List (String × J)` over a JSON value type `J`),
`None` as `Option`/`J.null`, and raised exceptions as `Except PyErr`.
External process invocations (`subprocess.run`) are modelled as oracle
functions passed in as parameters.  `datetime.now()` is modelled as an
explicit `now : String` parameter.
-/

namespace WaferSpace

/-- Python exceptions that the embedded code can raise. -/
inductive PyErr where
  | keyError (k : String)
  | valueError (msg : String)
  | typeError (msg : String)
deriving DecidableEq, Repr

/-- Python truthiness of an optional string: `None` and `""` are falsy. -/
def truthyStr : Option String → Bool
  | some s => !(s == "")
  | none => false

/-! ## `scripts/channel_classifier.py` -/

/-- Model of `ChannelType` enumeration from `scripts/channel_classifier.py`. -/
inductive ChannelType where
  | regular
  | forum
  | thread
deriving DecidableEq, Repr

/-- A raw channel record as produced by `_parse_channel_line`: a dict with
keys `name`, `id`, `parent_id`.  A missing key is `none`; `parent_id` may
also be present with value `None`, which we conflate with absence (the
parser only ever stores `None` or a non-empty string there). -/
structure Channel where
  id : Option String := none
  name : Option String := none
  parent_id : Option String := none
deriving DecidableEq, Repr

/-- Model of `classify_channel(channel, forum_list, all_channels)`.  The source
subscripts `channel["name"]`, which raises `KeyError` when the key is
missing; this is modelled with `Except`. -/
def classify_channel (channel : Channel) (forum_list : List String)
    (all_channels : List Channel) : Except PyErr ChannelType :=
  -- If channel has parent_id (truthy), it's a thread
  if truthyStr channel.parent_id then .ok .thread
  else
    match channel.name with
    | none => .error (.keyError "name")
    | some channel_name =>
      -- If channel name is in forum list, it's a forum
      if channel_name ∈ forum_list then .ok .forum
      -- Check if any other channels have this as parent (auto-detect forum)
      else if all_channels.any (fun ch => ch.parent_id == some channel_name) then .ok .forum
      else .ok .regular

/-- ASCII model of Python `str.lower` on a single character.  The letters
the sanitiser can keep are exactly `[a-z0-9-]`, all ASCII, so restricting
case-mapping to `A`–`Z` is faithful for every character that survives the
pipeline. -/
def pyLower (c : Char) : Char :=
  if 65 ≤ c.toNat ∧ c.toNat ≤ 90 then Char.ofNat (c.toNat + 32) else c

/-- The character class `[a-z0-9-]` of the regex in `sanitize_thread_name`. -/
def isAllowedChar (c : Char) : Bool :=
  (97 ≤ c.toNat && c.toNat ≤ 122) || (48 ≤ c.toNat && c.toNat ≤ 57) || (c == '-')

/-- Model of `re.sub(r"-+", "-", name)`: collapse every maximal run of
hyphens to a single hyphen.  The `Bool` argument records whether the
previously emitted character was a hyphen of a still-open run. -/
def collapseAux : Bool → List Char → List Char
  | _, [] => []
  | prevHyphen, c :: rest =>
    if c = '-' then
      if prevHyphen then collapseAux true rest
      else '-' :: collapseAux true rest
    else c :: collapseAux false rest

/-- Model of `name.strip("-")`: drop leading and trailing hyphens. -/
def stripDashes (l : List Char) : List Char :=
  (((l.dropWhile (· == '-')).reverse.dropWhile (· == '-'))).reverse

/-- The cleaning pipeline of `sanitize_thread_name` before the length
fallback: lowercase, spaces to hyphens, drop characters outside
`[a-z0-9-]`, collapse hyphen runs, strip outer hyphens, truncate to 100. -/
def cleanName (title : List Char) : List Char :=
  let name := title.map pyLower
  let name := name.map fun c => if c = ' ' then '-' else c
  let name := name.filter isAllowedChar
  let name := collapseAux false name
  let name := stripDashes name
  name.take 100

/-- Model of `sanitize_thread_name(title, thread_id=None)` over character lists.
`if len(name) < 3 and thread_id:` uses Python truthiness, so a `None` or
empty fallback id never triggers the replacement. -/
def sanitize_thread_name (title : List Char) (thread_id : Option (List Char) := none) :
    List Char :=
  let name := cleanName title
  match thread_id with
  | some tid => if name.length < 3 ∧ tid ≠ [] then "thread-".toList ++ tid else name
  | none => name

/-- String-typed wrapper of `sanitize_thread_name`, used by the
orchestrator embedding. -/
def sanitizeStr (title : String) (thread_id : Option String := none) : String :=
  ⟨sanitize_thread_name title.toList (thread_id.map String.toList)⟩

/-! ## JSON values and Python dict operations

The tracking state (`state.json`) is a JSON document.  Objects are
modelled as ordered association lists, matching Python dict insertion
order; the pipeline never creates duplicate keys. -/

/-- JSON values as stored in `state.json` and the export ledgers. -/
inductive J where
  | str (s : String)
  | num (n : Int)
  | bool (b : Bool)
  | null
  | arr (xs : List J)
  | obj (fields : List (String × J))

/-- Fields of a JSON object; `[]` for non-objects (the Python code would
raise on those, and the pipeline only ever stores objects at the places
where this is used). -/
def J.fieldsD : J → List (String × J)
  | .obj f => f
  | _ => []

/-- Python dict lookup `d.get(k)` on an association list. -/
def jlookup (fields : List (String × J)) (k : String) : Option J :=
  match fields with
  | [] => none
  | (k', v) :: rest => if k' = k then some v else jlookup rest k

/-- Model of `d.get(k)` where `d` is a JSON object value. -/
def jlookupJ (j : J) (k : String) : Option J :=
  jlookup j.fieldsD k

/-- Model of `d.get(k, {})`: lookup with empty-dict default. -/
def jgetD (j : J) (k : String) : J :=
  (jlookupJ j k).getD (.obj [])

/-- Model of `k in d`: Python key membership. -/
def keyMem (fields : List (String × J)) (k : String) : Bool :=
  fields.any (fun kv => kv.1 == k)

/-- Replace the value stored under `k` (at every occurrence; the
pipeline's dicts never hold duplicate keys). -/
def replaceField (k : String) (v : J) : List (String × J) → List (String × J)
  | [] => []
  | (k', v') :: rest =>
    if k' = k then (k, v) :: replaceField k v rest
    else (k', v') :: replaceField k v rest

/-- Python dict assignment `d[k] = v`: replace in place when the key
exists (keeping its position), append otherwise. -/
def setField (fields : List (String × J)) (k : String) (v : J) : List (String × J) :=
  if keyMem fields k then replaceField k v fields
  else fields ++ [(k, v)]

/-- Python truthiness of a JSON value: `None`, `False`, `""`, `[]` and
`{}` are falsy. -/
def J.truthy : J → Bool
  | .str s => !(s == "")
  | .num n => !(n == 0)
  | .bool b => b
  | .null => false
  | .arr xs => !xs.isEmpty
  | .obj f => !f.isEmpty

/-- The keys of a JSON object value. -/
def J.keys (j : J) : List String :=
  j.fieldsD.map Prod.fst

/-- Lookup along a path of keys, descending through nested objects. -/
def lookupPath (fields : List (String × J)) : List String → Option J
  | [] => some (.obj fields)
  | [k] => jlookup fields k
  | k :: ks =>
    match jlookup fields k with
    | some (.obj f) => lookupPath f ks
    | _ => none

/-! ## `scripts/state.py` — `StateManager`

`self.state` is the root JSON object of `state.json`.  Every update
method mutates the nested dicts in place and then calls `save()`; the
on-disk persistence is outside the model, so each method is embedded as
a function from the root object to the new root object.  The wall-clock
stamps `datetime.now(timezone.utc).isoformat()` are passed in as an
explicit `now` parameter. -/

/-- The root tracking-state document: a Python dict. -/
abbrev St := List (String × J)

/-- Model of `ThreadInfo` dataclass from `scripts/state.py`. -/
structure ThreadInfo where
  thread_id : String
  thread_name : String
  thread_title : String
  last_message_id : Option String := none
  archived : Bool := false

/-- Model of `StateManager.update_channel(server, channel, timestamp, message_id)`:
`self.state[server][channel] = {"last_export": timestamp, "last_message_id": message_id}`,
creating `self.state[server] = {}` first when the server key is absent.
Note the channel leaf is stored *directly* under the server key. -/
def update_channel (state : St) (server channel timestamp message_id : String) : St :=
  let serverFields :=
    match jlookup state server with
    | some (J.obj f) => f
    | _ => []
  let leaf : J := .obj [("last_export", .str timestamp), ("last_message_id", .str message_id)]
  setField state server (.obj (setField serverFields channel leaf))

/-- Model of `StateManager.get_channel_state(server, channel)`. -/
def get_channel_state (state : St) (server channel : String) : Option J :=
  match jlookup state server with
  | some sv => jlookupJ sv channel
  | none => none

/-- Model of `StateManager.update_thread_state(server, forum, thread_info)`; the
stored `last_export` is the current process time `now`. -/
def update_thread_state (state : St) (server forum : String) (ti : ThreadInfo)
    (now : String) : St :=
  let serverFields :=
    match jlookup state server with
    | some (J.obj f) => f
    | _ => []
  let forumsFields := (jgetD (.obj serverFields) "forums").fieldsD
  let forumFields := (jgetD (.obj forumsFields) forum).fieldsD
  let threadsFields := (jgetD (.obj forumFields) "threads").fieldsD
  let leaf : J := .obj
    [ ("name", .str ti.thread_name)
    , ("title", .str ti.thread_title)
    , ("last_export", .str now)
    , ("last_message_id", match ti.last_message_id with | some m => .str m | none => .null)
    , ("archived", .bool ti.archived) ]
  let threadsFields := setField threadsFields ti.thread_id leaf
  let forumFields := setField forumFields "threads" (.obj threadsFields)
  let forumsFields := setField forumsFields forum (.obj forumFields)
  let serverFields := setField serverFields "forums" (.obj forumsFields)
  setField state server (.obj serverFields)

/-- Model of `StateManager.get_thread_state(server, forum, thread_id)`:
`self.state.get(server, {}).get("forums", {}).get(forum, {}).get("threads", {}).get(thread_id)`. -/
def get_thread_state (state : St) (server forum thread_id : String) : Option J :=
  jlookupJ (jgetD (jgetD (jgetD (jgetD (.obj state) server) "forums") forum) "threads")
    thread_id

/-- Model of `StateManager.update_forum_index_timestamp(server, forum)`: stores the
current time under the key `"last_index_update"` of the forum entry. -/
def update_forum_index_timestamp (state : St) (server forum : String) (now : String) : St :=
  let serverFields :=
    match jlookup state server with
    | some (J.obj f) => f
    | _ => []
  let forumsFields := (jgetD (.obj serverFields) "forums").fieldsD
  let forumFields := (jgetD (.obj forumsFields) forum).fieldsD
  let forumFields := setField forumFields "last_index_update" (.str now)
  let forumsFields := setField forumsFields forum (.obj forumFields)
  let serverFields := setField serverFields "forums" (.obj forumsFields)
  setField state server (.obj serverFields)

/-! ## `scripts/merge_state.py`

`parse_timestamp` calls `datetime.fromisoformat` after replacing `"Z"`
with `"+00:00"`.  The parser below models the ISO-8601 subset
`YYYY-MM-DD[<sep>HH[:MM[:SS[.ffffff]]]][±HH:MM]` (with calendar-valid
dates), which covers every timestamp this pipeline reads or writes;
parse failure is `none`, as in the source (the `except` clause returns
`None`).  Comparing an offset-naive with an offset-aware datetime raises
`TypeError` in Python, modelled with `Except`. -/

/-- A parsed Python `datetime`: microseconds since the epoch ignoring the
offset, plus the UTC offset in minutes (`none` for a naive datetime). -/
structure PyDT where
  us : Int
  offMin : Option Int
deriving DecidableEq, Repr

/-- Leap-year rule of the proleptic Gregorian calendar. -/
def isLeap (y : Nat) : Bool :=
  y % 4 == 0 && (y % 100 != 0 || y % 400 == 0)

/-- Days in a month, as validated by `datetime.date`. -/
def daysInMonth (y m : Nat) : Nat :=
  if m = 2 then (if isLeap y then 29 else 28)
  else if m = 4 ∨ m = 6 ∨ m = 9 ∨ m = 11 then 30
  else 31

/-- Days since 1970-01-01 of a civil date (Gregorian), standard
era/year-of-era computation. -/
def daysFromCivil (y m d : Int) : Int :=
  let y := if m ≤ 2 then y - 1 else y
  let era := (if 0 ≤ y then y else y - 399) / 400
  let yoe := y - era * 400
  let doy := (153 * (if 2 < m then m - 3 else m + 9) + 2) / 5 + d - 1
  let doe := yoe * 365 + yoe / 4 - yoe / 100 + doy
  era * 146097 + doe - 719468

/-- Read exactly `n` ASCII digits, returning their value and the rest. -/
def parseNDigits (n : Nat) (l : List Char) : Option (Nat × List Char) :=
  let pre := l.take n
  if pre.length = n ∧ pre.all Char.isDigit then
    some (pre.foldl (fun acc c => 10 * acc + (c.toNat - 48)) 0, l.drop n)
  else none

/-- Consume one expected character. -/
def expectChar (c : Char) : List Char → Option (List Char)
  | [] => none
  | c' :: rest => if c' = c then some rest else none

/-- Microseconds into the day. -/
def timeUs (h m s frac : Nat) : Nat :=
  ((h * 60 + m) * 60 + s) * 1000000 + frac

/-- Parse `HH[:MM[:SS[.ffffff]]]`, returning microseconds into the day. -/
def parseTimePart (l : List Char) : Option (Nat × List Char) := do
  let (h, l1) ← parseNDigits 2 l
  guard (h ≤ 23)
  match l1 with
  | ':' :: l2 => do
    let (m, l3) ← parseNDigits 2 l2
    guard (m ≤ 59)
    match l3 with
    | ':' :: l4 => do
      let (s, l5) ← parseNDigits 2 l4
      guard (s ≤ 59)
      match l5 with
      | '.' :: l6 => do
        let ds := l6.takeWhile Char.isDigit
        guard (1 ≤ ds.length ∧ ds.length ≤ 6)
        let frac := (ds.foldl (fun a c => 10 * a + (c.toNat - 48)) 0) * 10 ^ (6 - ds.length)
        pure (timeUs h m s frac, l6.drop ds.length)
      | _ => pure (timeUs h m s 0, l5)
    | _ => pure (timeUs h m 0 0, l3)
  | _ => pure (timeUs h 0 0 0, l1)

/-- Parse the trailing UTC offset `±HH:MM`, or nothing (naive). -/
def parseOffset : List Char → Option (Option Int)
  | [] => some none
  | sign :: rest =>
    if sign = '+' ∨ sign = '-' then do
      let (oh, r1) ← parseNDigits 2 rest
      let r2 ← expectChar ':' r1
      let (om, r3) ← parseNDigits 2 r2
      guard (oh ≤ 23 ∧ om ≤ 59 ∧ r3 = [])
      pure (some ((if sign = '+' then (1 : Int) else -1) * ((oh : Int) * 60 + (om : Int))))
    else none

/-- Model of `datetime.fromisoformat` on the subset described above. -/
def pyFromIso (l : List Char) : Option PyDT := do
  let (y, l1) ← parseNDigits 4 l
  let l2 ← expectChar '-' l1
  let (mo, l3) ← parseNDigits 2 l2
  let l4 ← expectChar '-' l3
  let (d, l5) ← parseNDigits 2 l4
  guard (1 ≤ mo ∧ mo ≤ 12)
  guard (1 ≤ d ∧ d ≤ daysInMonth y mo)
  match l5 with
  | [] => pure ⟨daysFromCivil y mo d * 86400000000, none⟩
  | _sep :: rest => do
    let (tus, r1) ← parseTimePart rest
    let off ← parseOffset r1
    pure ⟨daysFromCivil y mo d * 86400000000 + (tus : Int), off⟩

/-- Model of `ts.replace("Z", "+00:00")`. -/
def replaceZ : List Char → List Char
  | [] => []
  | c :: rest =>
    if c = 'Z' then '+' :: '0' :: '0' :: ':' :: '0' :: '0' :: replaceZ rest
    else c :: replaceZ rest

/-- Model of `parse_timestamp(ts)` applied to the JSON value found under a
timestamp key: `None`/`""` (falsy) give `None`, and a failed
`fromisoformat` gives `None`.  A non-string, non-null value is never
produced by this pipeline and is modelled as unparseable. -/
def parse_timestamp : Option J → Option PyDT
  | some (.str s) => if s = "" then none else pyFromIso (replaceZ s.toList)
  | _ => none

/-- Python `>` on datetimes: raises `TypeError` when exactly one side is
offset-aware. -/
def dtGt (a b : PyDT) : Except PyErr Bool :=
  match a.offMin, b.offMin with
  | none, none => .ok (decide (b.us < a.us))
  | some oa, some ob => .ok (decide (b.us - ob * 60000000 < a.us - oa * 60000000))
  | _, _ => .error (.typeError "cant compare offset-naive and offset-aware datetimes")

/-- The key set `set(ours.keys()) | set(theirs.keys())`.  Python's set
iteration order is unspecified; the model fixes first-occurrence order,
which leaves the merged dict's contents (key-value associations)
unchanged. -/
def unionKeys (ours theirs : List (String × J)) : List String :=
  ((ours.map Prod.fst) ++ (theirs.map Prod.fst)).dedup

/-- The shared per-key loop body of `merge_thread_data` and
`merge_channel_data` (the two source functions have identical bodies):
pick one side's leaf wholesale, comparing `last_export` timestamps. -/
def select_leaf (our_data their_data : J) : Except PyErr J :=
  if !our_data.truthy then .ok their_data
  else if !their_data.truthy then .ok our_data
  else
    match parse_timestamp (jlookupJ our_data "last_export"),
          parse_timestamp (jlookupJ their_data "last_export") with
    | none, _ => .ok their_data
    | some _, none => .ok our_data
    | some ots, some tts => do
      let gt ← dtGt tts ots
      pure (if gt then their_data else our_data)

/-- Model of `merge_thread_data(ours, theirs)`. -/
def merge_thread_data (ours theirs : J) : Except PyErr J := do
  let keys := unionKeys ours.fieldsD theirs.fieldsD
  let fields ← keys.mapM (fun k => do
    let v ← select_leaf (jgetD ours k) (jgetD theirs k)
    pure (k, v))
  pure (.obj fields)

/-- Model of `merge_channel_data(ours, theirs)` — same body as
`merge_thread_data` in the source. -/
def merge_channel_data (ours theirs : J) : Except PyErr J := do
  let keys := unionKeys ours.fieldsD theirs.fieldsD
  let fields ← keys.mapM (fun k => do
    let v ← select_leaf (jgetD ours k) (jgetD theirs k)
    pure (k, v))
  pure (.obj fields)

/-- Model of `merge_forum_data(ours, theirs)`: recursively merge `threads`, and
keep the newer `last_index_generation` (dropping the field when neither
side's value parses). -/
def merge_forum_data (ours theirs : J) : Except PyErr J := do
  let keys := unionKeys ours.fieldsD theirs.fieldsD
  let fields ← keys.mapM (fun k => do
    let od := jgetD ours k
    let td := jgetD theirs k
    if !od.truthy then pure (k, td)
    else if !td.truthy then pure (k, od)
    else do
      let part1 : List (String × J) ←
        if keyMem od.fieldsD "threads" || keyMem td.fieldsD "threads" then do
          let tv ← merge_thread_data (jgetD od "threads") (jgetD td "threads")
          pure [("threads", tv)]
        else pure []
      let part2 : List (String × J) ←
        if keyMem od.fieldsD "last_index_generation" ||
            keyMem td.fieldsD "last_index_generation" then do
          let ots := parse_timestamp (jlookupJ od "last_index_generation")
          let tts := parse_timestamp (jlookupJ td "last_index_generation")
          -- if their_ts and (not our_ts or their_ts > our_ts): take theirs
          let c1 ← match tts, ots with
            | none, _ => pure false
            | some _, none => pure true
            | some t, some o => dtGt t o
          if c1 then
            pure [("last_index_generation", (jlookupJ td "last_index_generation").getD .null)]
          else if ots.isSome then
            pure [("last_index_generation", (jlookupJ od "last_index_generation").getD .null)]
          else pure []
        else pure []
      pure (k, J.obj (part1 ++ part2)))
  pure (.obj fields)

/-- Model of `merge_server_data(ours, theirs)`: merges only the `"forums"` and
`"channels"` sub-maps; any other key of a server entry is dropped. -/
def merge_server_data (ours theirs : J) : Except PyErr J := do
  let part1 : List (String × J) ←
    if keyMem ours.fieldsD "forums" || keyMem theirs.fieldsD "forums" then do
      let v ← merge_forum_data (jgetD ours "forums") (jgetD theirs "forums")
      pure [("forums", v)]
    else pure []
  let part2 : List (String × J) ←
    if keyMem ours.fieldsD "channels" || keyMem theirs.fieldsD "channels" then do
      let v ← merge_channel_data (jgetD ours "channels") (jgetD theirs "channels")
      pure [("channels", v)]
    else pure []
  pure (.obj (part1 ++ part2))

/-- Model of `merge_states(ours, theirs)`. -/
def merge_states (ours theirs : St) : Except PyErr St := do
  let keys := unionKeys ours theirs
  keys.mapM (fun server => do
    let od := jgetD (.obj ours) server
    let td := jgetD (.obj theirs) server
    if !od.truthy then pure (server, td)
    else if !td.truthy then pure (server, od)
    else do
      let v ← merge_server_data od td
      pure (server, v))

/-! ## `scripts/export_channels.py`

The export CLI is an external collaborator: `run_export` (a
`subprocess.run` wrapper returning `(success, output)`) is modelled as
an oracle `runExport : List String → Bool × String` passed in as a
parameter.  Filesystem paths are segment lists; `mkdir` calls are
recorded in an effect log. -/

/-- Glob matching as used by `fnmatch.fnmatch` on this repository's
patterns: `*` matches any run, `?` any single character, everything else
literally.  (Bracket classes are not used by any pattern in this
repository and are not modelled.) -/
def globMatch : List Char → List Char → Bool
  | [], s => s.isEmpty
  | '*' :: p, s => s.tails.any (fun t => globMatch p t)
  | '?' :: p, s =>
    (match s with
     | [] => false
     | _ :: t => globMatch p t)
  | c :: p, s =>
    (match s with
     | [] => false
     | d :: t => c == d && globMatch p t)

/-- Model of `should_include_channel(channel_name, include_patterns, exclude_patterns)`:
exclusions first, then the literal `"*"` wildcard, then inclusions. -/
def should_include_channel (channel_name : String)
    (include_patterns exclude_patterns : List String) : Bool :=
  if exclude_patterns.any (fun p => globMatch p.toList channel_name.toList) then false
  else if include_patterns.contains "*" then true
  else include_patterns.any (fun p => globMatch p.toList channel_name.toList)

/-- Model of `MediaConfig` dataclass. -/
structure MediaConfig where
  download_media : Bool := false
  media_dir : Option String := none
  reuse_media : Bool := false

/-- The `format_map` of `_export_channel_formats`. -/
def format_map : List (String × String) :=
  [("html", "HtmlDark"), ("txt", "PlainText"), ("json", "Json"), ("csv", "Csv")]

/-- Assoc-list lookup for string maps (Python dict `.get`). -/
def slookup : List (String × String) → String → Option String
  | [], _ => none
  | (k', v) :: rest, k => if k' = k then some v else slookup rest k

/-- Render a path (segment list) the way `str(Path(...))` does. -/
def pathStr (p : List String) : String := String.intercalate "/" p

/-- Model of `format_export_command(...)`: validates the format and the numeric
channel id (raising `ValueError`), then builds the CLI argument list;
`--after` is appended only for a truthy `after_timestamp`. -/
def format_export_command (token channel_id output_path format_type : String)
    (after_timestamp : Option String := none)
    (media_config : Option MediaConfig := none) : Except PyErr (List String) :=
  if format_type ∉ ["HtmlDark", "HtmlLight", "PlainText", "Json", "Csv"] then
    .error (.valueError "Invalid format_type")
  else if !(!channel_id.toList.isEmpty && channel_id.toList.all Char.isDigit) then
    .error (.valueError "Invalid channel_id")
  else
    let cmd := ["bin/discord-exporter/DiscordChatExporter.Cli", "export",
      "-t", token, "-c", channel_id, "-f", format_type, "-o", output_path]
    let cmd := cmd ++
      (match after_timestamp with
       | some a => if a = "" then [] else ["--after", a]
       | none => [])
    let cmd :=
      match media_config with
      | some mc =>
        if mc.download_media then
          cmd ++ ["--media"] ++
            (match mc.media_dir with | some d => ["--media-dir", d] | none => []) ++
            (if mc.reuse_media then ["--reuse-media"] else [])
        else cmd
      | none => cmd
    .ok cmd

/-- Export configuration: `config["export"]` fields the orchestrator reads. -/
structure ExportCfg where
  formats : List String
  download_media : Bool := false
  reuse_media : Bool := false

/-- Model of `ChannelInfo` dataclass. -/
structure ChannelInfo where
  channel_id : String
  channel_name : String
  safe_name : String
  forum_name : String

/-- One entry of the structured error list. -/
structure ErrEntry where
  channel : String
  format : String
  error : String
deriving DecidableEq, Repr

/-- Model of `_determine_export_location(channel, channel_type, channel_id,
server_dir, channel_path_map)`.  Returns `(safe_name, export_dir,
forum_name)` plus the effect log of directories created — the thread
branch runs `thread_dir.mkdir(parents=True, exist_ok=True)`. -/
def determine_export_location (channel : Channel) (channel_type : ChannelType)
    (channel_id : String) (server_dir : List String)
    (channel_path_map : List (String × String)) :
    String × List String × String × List (List String) :=
  match channel_type with
  | .thread =>
    let forum_name_simple :=
      match channel.parent_id with
      | some s => if s = "" then "unknown-forum" else s
      | none => "unknown-forum"
    let forum_full_path := (slookup channel_path_map forum_name_simple).getD forum_name_simple
    let thread_dir := server_dir ++ [forum_full_path]
    let safe_name := sanitizeStr
      (match channel.name with
       | some n => if n = "" then "unknown" else n
       | none => "unknown") (some channel_id)
    (safe_name, thread_dir, forum_full_path, [thread_dir])
  | _ =>
    let channel_name :=
      match channel.name with
      | some n => if n = "" then "unknown" else n
      | none => "unknown"
    (channel_name, server_dir, "", [])

/-- Model of `_get_last_export_timestamp(...)`: reads the prior watermark from the
state store (`thread_state["last_export"]` subscripting raises `KeyError`
when a truthy leaf lacks the key). -/
def get_last_export_timestamp (state : St) (server_key : String)
    (channel_type : ChannelType) (channel_name channel_id forum_name : String) :
    Except PyErr (Option String) :=
  let read (leaf : Option J) : Except PyErr (Option String) :=
    match leaf with
    | some l =>
      if l.truthy then
        match jlookupJ l "last_export" with
        | some (.str s) => .ok (some s)
        | some _ => .ok none   -- a stored null (or non-string) yields no cutoff
        | none => .error (.keyError "last_export")
      else .ok none
    | none => .ok none
  if channel_type = .thread then
    read (get_thread_state state server_key forum_name channel_id)
  else
    read (get_channel_state state server_key channel_name)

/-- Context threaded through the per-format export loop. -/
structure FmtCtx where
  runExport : List String → Bool × String
  cfg : ExportCfg
  token : String
  channel_id : String
  channel_name : String
  export_dir : List String
  export_name : String
  after_timestamp : Option String

/-- The `MediaConfig` the loop of `_export_channel_formats` builds for
one format. -/
def loop_media_config (ctx : FmtCtx) : MediaConfig :=
  ⟨ctx.cfg.download_media,
    if ctx.cfg.download_media then
      some (pathStr ctx.export_dir ++ "/" ++ ctx.export_name ++ "_media")
    else none,
    ctx.cfg.reuse_media⟩

/-- The CLI command `_export_channel_formats` builds for one format
(raising the format-map `KeyError` or the `format_export_command`
`ValueError`). -/
def loop_command (ctx : FmtCtx) (fmt : String) : Except PyErr (List String) :=
  match slookup format_map fmt with
  | none => .error (.keyError fmt)
  | some format_type =>
    format_export_command ctx.token ctx.channel_id
      (pathStr ctx.export_dir ++ "/" ++ ctx.export_name ++ "." ++ fmt) format_type
      ctx.after_timestamp (some (loop_media_config ctx))

/-- Return value of the `_export_channel_formats` loop: the tally
`(exports_completed, failures, errors)`, or the first raised exception. -/
def export_result (ctx : FmtCtx) : List String → Except PyErr (Nat × Nat × List ErrEntry)
  | [] => .ok (0, 0, [])
  | fmt :: rest =>
    match loop_command ctx fmt with
    | .error e => .error e
    | .ok cmd =>
      match export_result ctx rest with
      | .error e => .error e
      | .ok t =>
        if (ctx.runExport cmd).1 then .ok (t.1 + 1, t.2.1, t.2.2)
        else .ok (t.1, t.2.1 + 1, ⟨ctx.channel_name, fmt, (ctx.runExport cmd).2⟩ :: t.2.2)

/-- The export invocations the loop actually issues, in order: one per
format until the first raised exception stops the loop. -/
def export_cmds (ctx : FmtCtx) : List String → List (List String)
  | [] => []
  | fmt :: rest =>
    match loop_command ctx fmt with
    | .error _ => []
    | .ok cmd => cmd :: export_cmds ctx rest

/-- Model of `_update_channel_state_after_export(...)`: commit the entity's state
(threads nest under their forum; regular channels store a placeholder
message id).  `now` stands for `datetime.now(...).isoformat()`. -/
def update_channel_state_after_export (state : St) (server_key : String)
    (channel_type : ChannelType) (ci : ChannelInfo) (now : String) : St :=
  if channel_type = .thread then
    update_thread_state state server_key ci.forum_name
      ⟨ci.channel_id, ci.safe_name, ci.channel_name, none, false⟩ now
  else
    update_channel state server_key ci.channel_name now "placeholder_message_id"

/-- Outcome of `_process_single_channel`: the returned tuple (or the
exception), the state store after the call, and the effect logs of
directories created and export commands issued. -/
structure ProcOut where
  result : Except PyErr (Nat × Nat × Nat × List ErrEntry)
  state : St
  dirs : List (List String)
  cmds : List (List String)

/-- Model of `_process_single_channel(...)`: skip malformed records, create forum
directories, resolve the export location, apply the include/exclude
filters, resolve the incremental cutoff, run every configured format,
and commit state only when no format failed. -/
def process_single_channel (runExport : List String → Bool × String) (cfg : ExportCfg)
    (token server_key : String) (state : St) (channel : Channel)
    (channel_type : ChannelType) (server_dir : List String)
    (include_patterns exclude_patterns : List String)
    (channel_path_map : List (String × String)) (now : String) : ProcOut :=
  if !truthyStr channel.name || !truthyStr channel.id then
    ⟨.ok (0, 0, 0, []), state, [], []⟩
  else
    let channel_name := channel.name.getD ""
    let channel_id := channel.id.getD ""
    if channel_type = .forum then
      ⟨.ok (0, 0, 0, []), state, [server_dir ++ [channel_name]], []⟩
    else
      let loc :=
        determine_export_location channel channel_type channel_id server_dir channel_path_map
      let safe_name := loc.1
      let export_dir := loc.2.1
      let forum_name := loc.2.2.1
      let dirs := loc.2.2.2
      let export_name := safe_name
      if !should_include_channel channel_name include_patterns exclude_patterns then
        ⟨.ok (0, 0, 0, []), state, dirs, []⟩
      else
        match get_last_export_timestamp state server_key channel_type channel_name
            channel_id forum_name with
        | .error e => ⟨.error e, state, dirs, []⟩
        | .ok after_timestamp =>
          let ci : ChannelInfo := ⟨channel_id, channel_name, safe_name, forum_name⟩
          let ctx : FmtCtx :=
            ⟨runExport, cfg, token, channel_id, channel_name, export_dir, export_name,
              after_timestamp⟩
          match export_result ctx cfg.formats with
          | .error e => ⟨.error e, state, dirs, export_cmds ctx cfg.formats⟩
          | .ok t =>
            if t.2.1 = 0 then
              ⟨.ok (t.1, 1, 0, t.2.2),
                update_channel_state_after_export state server_key channel_type ci now,
                dirs, export_cmds ctx cfg.formats⟩
            else ⟨.ok (t.1, 0, t.2.1, t.2.2), state, dirs, export_cmds ctx cfg.formats⟩

/-! ## `scripts/organize_exports.py` — consolidation

`_copy_to_month_directory` copies the staged export over the month
bucket with `shutil.copy2`: the destination file's content becomes an
exact copy of the staged source, irrespective of any previous bucket
content.  (It performs no parsing and no merging of ledger contents.) -/

/-- Content effect of `_copy_to_month_directory` on the month-bucket
file: the previous bucket content (if any) is overwritten by the staged
content. -/
def copy_to_month_directory (prior : Option J) (staged : J) : J :=
  match prior with
  | _ => staged

/-- Message ids of a parsed JSON export ledger (`data["messages"][i]["id"]`). -/
def ledgerMessageIds (ledger : J) : List String :=
  match jlookupJ ledger "messages" with
  | some (.arr msgs) =>
    msgs.filterMap (fun m =>
      match jlookupJ m "id" with
      | some (.str s) => some s
      | _ => none)
  | _ => []

/-! ## Dictionary lemmas -/

theorem jlookup_replaceField {l : List (String × J)} {k : String} {v : J}
    (h : keyMem l k = true) :
    jlookup (replaceField k v l) k = some v := by
  induction l with
  | nil => simp [keyMem] at h
  | cons kv rest ih =>
    obtain ⟨k1, v1⟩ := kv
    by_cases hk : k1 = k
    · simp [replaceField, jlookup, hk]
    · have h2 : keyMem rest k = true := by
        simp only [keyMem, List.any_cons, Bool.or_eq_true] at h
        rcases h with h | h
        · exact absurd (by simpa using h) hk
        · simpa [keyMem] using h
      simpa [replaceField, jlookup, hk] using ih h2

theorem jlookup_append_self {l : List (String × J)} {k : String} {v : J}
    (h : keyMem l k = false) :
    jlookup (l ++ [(k, v)]) k = some v := by
  induction l with
  | nil => simp [jlookup]
  | cons kv rest ih =>
    obtain ⟨k1, v1⟩ := kv
    simp only [keyMem, List.any_cons, Bool.or_eq_false_iff] at h
    have hk : ¬ k1 = k := by simpa using h.1
    simpa [jlookup, hk] using ih (by simpa [keyMem] using h.2)

/-- After `d[k] = v`, looking up `k` yields `v`. -/
theorem jlookup_setField_self (l : List (String × J)) (k : String) (v : J) :
    jlookup (setField l k v) k = some v := by
  unfold setField
  by_cases h : keyMem l k
  · simpa [h] using jlookup_replaceField h
  · simp only [Bool.not_eq_true] at h
    simpa [h] using jlookup_append_self h

/-! ## Claim C3 — the schema the state store actually maintains -/

/-- Claim C3, counterexample:  The claim asserts that every document the
state store produces keeps each regular channel's export state nested
under the server entry's `"channels"` map and each forum's
index-generation timestamp under the field name the merger compares
(`"last_index_generation"`).  The store does neither: `update_channel`
writes the channel leaf directly under the server key (the `"channels"`
path does not exist), and `update_forum_index_timestamp` writes
`"last_index_update"`, a key `merge_forum_data` never reads (merging an
entry holding only that key discards it). -/
theorem state_store_schema_cex :
    (lookupPath (update_channel [] "test-server" "general" "2025-01-15T15:00:00Z" "789012")
        ["test-server", "channels"] = none) ∧
    (lookupPath (update_channel [] "test-server" "general" "2025-01-15T15:00:00Z" "789012")
        ["test-server", "general"] =
      some (.obj [("last_export", .str "2025-01-15T15:00:00Z"),
        ("last_message_id", .str "789012")])) ∧
    (lookupPath (update_forum_index_timestamp [] "test-server" "questions"
          "2025-11-14T10:00:00+00:00")
        ["test-server", "forums", "questions", "last_index_generation"] = none) ∧
    (lookupPath (update_forum_index_timestamp [] "test-server" "questions"
          "2025-11-14T10:00:00+00:00")
        ["test-server", "forums", "questions", "last_index_update"] =
      some (.str "2025-11-14T10:00:00+00:00")) ∧
    (merge_forum_data
        (.obj [("questions", .obj [("last_index_update", .str "2025-11-14T10:00:00+00:00")])])
        (.obj [("questions", .obj [("last_index_update", .str "2025-11-14T10:00:00+00:00")])]) =
      .ok (.obj [("questions", .obj [])])) :=
  ⟨rfl, rfl, rfl, rfl, rfl⟩

/-- Claim C3 (amended):  The layout the update operations actually
maintain: `update_channel` stores the channel leaf *directly* under
`state[server][channel]` (not under a `"channels"` map);
`update_thread_state` nests thread leaves under
`server → "forums" → forum → "threads" → thread_id`; and
`update_forum_index_timestamp` stamps `server → "forums" → forum →
"last_index_update"` — a field name different from the
`"last_index_generation"` key that `merge_forum_data` compares, so the
merger ignores the store's forum timestamps (last conjunct). -/
theorem state_store_actual_layout
    (state : St) (server channel forum ts mid now tid tname ttitle : String) :
    lookupPath (update_channel state server channel ts mid) [server, channel] =
      some (.obj [("last_export", .str ts), ("last_message_id", .str mid)]) ∧
    lookupPath (update_forum_index_timestamp state server forum now)
      [server, "forums", forum, "last_index_update"] = some (.str now) ∧
    lookupPath (update_thread_state state server forum ⟨tid, tname, ttitle, none, false⟩ now)
      [server, "forums", forum, "threads", tid] =
      some (.obj [("name", .str tname), ("title", .str ttitle), ("last_export", .str now),
        ("last_message_id", .null), ("archived", .bool false)]) ∧
    merge_forum_data (.obj [("questions", .obj [("last_index_update", .str ts)])])
        (.obj [("questions", .obj [("last_index_update", .str now)])]) =
      .ok (.obj [("questions", .obj [])]) := by
  refine ⟨?_, ?_, ?_, ?_⟩
  · simp [update_channel, lookupPath, jlookup_setField_self]
  · simp [update_forum_index_timestamp, lookupPath, jlookup_setField_self]
  · simp [update_thread_state, lookupPath, jlookup_setField_self]
  · rfl

/-! ## Claim C4 — `merge(A, A) = A` fails on store-produced snapshots -/

/-- The snapshot produced by the store's own `update_channel` on an empty
state — the exact in-memory layout `test_state_manager_updates_channel_state`
pins down. -/
def flatSnapshot : St :=
  update_channel [] "test-server" "general" "2025-01-15T15:00:00Z" "789012"

/-- Claim C4:  `merge_states` is *not* idempotent on snapshots the
StateStore itself produces: merging `flatSnapshot` with itself returns
`{"test-server": {}}`, silently dropping the `"general"` channel entry,
because `merge_server_data` only recurses into `"forums"`/`"channels"`
sub-maps while `update_channel` stores channels directly under the
server key. -/
theorem merge_states_not_idempotent_on_store_snapshot :
    merge_states flatSnapshot flatSnapshot = .ok [("test-server", .obj [])] ∧
    jlookup flatSnapshot "test-server" =
      some (.obj [("general", .obj [("last_export", .str "2025-01-15T15:00:00Z"),
        ("last_message_id", .str "789012")])]) ∧
    merge_states flatSnapshot flatSnapshot ≠ .ok flatSnapshot := by
  refine ⟨rfl, rfl, ?_⟩
  intro h
  have e : merge_states flatSnapshot flatSnapshot = .ok [("test-server", J.obj [])] := rfl
  rw [e] at h
  have h2 := congrArg
    (fun r => match r with
      | Except.ok l => (jgetD (J.obj l) "test-server").keys
      | Except.error _ => []) h
  simp only [] at h2
  exact absurd h2 (by decide)

/-! ## Claim C1 — consolidation of an existing month-bucket ledger -/

/-- The pre-existing bucket ledger of the repository's own regression
test `test_organize_exports_merges_json_messages`. -/
def existing_bucket_ledger : J := .obj
  [ ("guild", .obj [("id", .str "123"), ("name", .str "Test Server")])
  , ("channel", .obj [("id", .str "456"), ("name", .str "general")])
  , ("dateRange", .obj [("after", .null), ("before", .null)])
  , ("messages", .arr
      [ .obj [("id", .str "1000"), ("content", .str "First message"),
          ("timestamp", .str "2025-01-01T00:00:00")]
      , .obj [("id", .str "1001"), ("content", .str "Second message"),
          ("timestamp", .str "2025-01-02T00:00:00")]])
  , ("messageCount", .num 2) ]

/-- The newly staged incremental export of the same test: only the new
message `1002`. -/
def staged_delta_ledger : J := .obj
  [ ("guild", .obj [("id", .str "123"), ("name", .str "Test Server")])
  , ("channel", .obj [("id", .str "456"), ("name", .str "general")])
  , ("dateRange", .obj [("after", .str "2025-01-02T00:00:00"), ("before", .null)])
  , ("messages", .arr
      [ .obj [("id", .str "1002"), ("content", .str "Third message (new)"),
          ("timestamp", .str "2025-01-03T00:00:00")]])
  , ("messageCount", .num 1) ]

/-- Claim C1:  Consolidating a staged ledger into a month bucket that
already exists does *not* produce the union of the two message sets:
`_copy_to_month_directory` copies the staged file over the bucket
(`shutil.copy2`), so the resulting bucket holds exactly the staged
messages and the previously captured ids `1000`/`1001` are lost — the
bucket's message set after consolidation is not a superset of the
previously captured set (contradicting the spec and the repository's
own test `test_organize_exports_merges_json_messages`). -/
theorem consolidation_overwrites_prior_ledger :
    copy_to_month_directory (some existing_bucket_ledger) staged_delta_ledger =
      staged_delta_ledger ∧
    ledgerMessageIds existing_bucket_ledger = ["1000", "1001"] ∧
    ledgerMessageIds (copy_to_month_directory
      (some existing_bucket_ledger) staged_delta_ledger) = ["1002"] ∧
    "1000" ∉ ledgerMessageIds (copy_to_month_directory
      (some existing_bucket_ledger) staged_delta_ledger) :=
  ⟨rfl, rfl, rfl, by decide⟩

/-! ## Claim C5 — the per-leaf merge rule -/

/-- Claim C5, counterexample:  When *neither* side has a usable
`last_export` timestamp, the merge takes the `"theirs"` leaf, not the
claimed `"ours"` tie-break: here ours carries an unparseable timestamp
and theirs carries none at all, and the merged value is theirs. -/
theorem select_leaf_tie_break_cex :
    select_leaf (.obj [("last_export", .str "garbage"), ("last_message_id", .str "1")])
        (.obj [("note", .str "no timestamp")]) =
      .ok (.obj [("note", .str "no timestamp")]) ∧
    ¬ (select_leaf (.obj [("last_export", .str "garbage"), ("last_message_id", .str "1")])
        (.obj [("note", .str "no timestamp")]) =
      .ok (.obj [("last_export", .str "garbage"), ("last_message_id", .str "1")])) := by
  refine ⟨rfl, fun h => ?_⟩
  have h2 := congrArg
    (fun r => match r with
      | Except.ok v => (jlookupJ v "note").isSome
      | Except.error _ => false) h
  exact Bool.noConfusion (show true = false from h2)

/-- Claim C5 (amended):  For a channel or thread key present on both
sides with truthy leaves: a leaf whose `last_export` does not parse
loses to one that parses; when both parse, `their_ts > our_ts` decides,
so the later timestamp wins and an equal (or earlier) timestamp keeps
"ours"; but when *ours* fails to parse the code takes "theirs"
unconditionally — even if theirs has no usable timestamp either (the
documented "ours"-wins tie-break only applies to equal parseable
timestamps).  The chosen leaf is stored wholesale under the key by
`merge_channel_data`/`merge_thread_data`. -/
theorem select_leaf_rule :
    (∀ od td : J, od.truthy = true → td.truthy = true →
        parse_timestamp (jlookupJ od "last_export") = none →
        select_leaf od td = .ok td) ∧
    (∀ od td : J, ∀ o, od.truthy = true → td.truthy = true →
        parse_timestamp (jlookupJ od "last_export") = some o →
        parse_timestamp (jlookupJ td "last_export") = none →
        select_leaf od td = .ok od) ∧
    (∀ od td : J, ∀ o t b, od.truthy = true → td.truthy = true →
        parse_timestamp (jlookupJ od "last_export") = some o →
        parse_timestamp (jlookupJ td "last_export") = some t →
        dtGt t o = .ok b →
        select_leaf od td = .ok (if b then td else od)) ∧
    (∀ (k : String) (od td r : J), od.truthy = true → td.truthy = true →
        select_leaf od td = .ok r →
        merge_channel_data (.obj [(k, od)]) (.obj [(k, td)]) = .ok (.obj [(k, r)]) ∧
        merge_thread_data (.obj [(k, od)]) (.obj [(k, td)]) = .ok (.obj [(k, r)])) := by
  refine ⟨?_, ?_, ?_, ?_⟩
  · intro od td h1 h2 h3
    simp [select_leaf, h1, h2, h3]
  · intro od td o h1 h2 h3 h4
    simp [select_leaf, h1, h2, h3, h4]
  · intro od td o t b h1 h2 h3 h4 h5
    simp only [select_leaf, h1, h2, h3, h4, Bool.not_true, Bool.false_eq_true, if_false]
    rw [h5]
    rfl
  · intro k od td r h1 h2 hsel
    have hkeys : unionKeys (J.obj [(k, od)]).fieldsD (J.obj [(k, td)]).fieldsD = [k] := by
      simp [unionKeys, J.fieldsD, List.dedup_cons_of_mem, List.mem_singleton]
    have hod : jgetD (J.obj [(k, od)]) k = od := by simp [jgetD, jlookupJ, jlookup, J.fieldsD]
    have htd : jgetD (J.obj [(k, td)]) k = td := by simp [jgetD, jlookupJ, jlookup, J.fieldsD]
    constructor
    · simp only [merge_channel_data, hkeys, List.mapM_cons, List.mapM_nil, hod, htd, hsel]
      rfl
    · simp only [merge_thread_data, hkeys, List.mapM_cons, List.mapM_nil, hod, htd, hsel]
      rfl

/-- The "ours" side of the spec's merge scenario: channel `general` at
watermark `2025-01-01T00:00:00Z`. -/
def oursGeneralLeaf : J :=
  .obj [("last_export", .str "2025-01-01T00:00:00Z"), ("last_message_id", .str "111")]

/-- The "theirs" side of the spec's merge scenario: the same channel at
the later watermark `2025-01-02T00:00:00Z`. -/
def theirsGeneralLeaf : J :=
  .obj [("last_export", .str "2025-01-02T00:00:00Z"), ("last_message_id", .str "222")]

/-- Claim C5, witness:  The spec's scenario through `select_leaf_rule`:
the later `theirs` watermark wins, and the key gets theirs' leaf
wholesale in the merged channel map. -/
theorem select_leaf_rule_witness :
    select_leaf oursGeneralLeaf theirsGeneralLeaf = .ok theirsGeneralLeaf ∧
    merge_channel_data (.obj [("general", oursGeneralLeaf)])
        (.obj [("general", theirsGeneralLeaf)]) =
      .ok (.obj [("general", theirsGeneralLeaf)]) := by
  have hsel := select_leaf_rule.2.2.1 oursGeneralLeaf theirsGeneralLeaf
    ⟨1735689600000000, some 0⟩ ⟨1735776000000000, some 0⟩ true rfl rfl rfl rfl rfl
  have hsel' : select_leaf oursGeneralLeaf theirsGeneralLeaf = .ok theirsGeneralLeaf := by
    simpa using hsel
  exact ⟨hsel', (select_leaf_rule.2.2.2 "general" oursGeneralLeaf theirsGeneralLeaf
    theirsGeneralLeaf rfl rfl hsel').1⟩

/-! ## Claim C10 — classification totality and order-independence -/

/-- Claim C10, counterexample:  `classify_channel` does not return a role
for every record: a record with an id but no name and no parent
reference raises `KeyError` at `channel["name"]`. -/
theorem classify_channel_missing_name_cex :
    classify_channel ⟨some "1", none, none⟩ [] [] = .error (.keyError "name") ∧
    (classify_channel ⟨some "1", none, none⟩ [] []).toOption = none :=
  ⟨rfl, rfl⟩

/-- Claim C10 (amended):  `classify_channel` is deterministic (it is a
function of its arguments), order-independent over the sibling list
(invariant under any permutation), and total on every record that has a
truthy parent reference or a name field; a record with neither raises
`KeyError`. -/
theorem classify_channel_deterministic_total :
    (∀ (ch : Channel) (fl : List String) (l l' : List Channel), l.Perm l' →
        classify_channel ch fl l = classify_channel ch fl l') ∧
    (∀ (ch : Channel) (fl : List String) (l : List Channel),
        truthyStr ch.parent_id = true ∨ ch.name.isSome = true →
        ∃ t, classify_channel ch fl l = .ok t) := by
  constructor
  · intro ch fl l l' hp
    have hany : ∀ p : Channel → Bool, l.any p = l'.any p := by
      intro p
      refine Bool.eq_iff_iff.mpr ?_
      simp only [List.any_eq_true]
      exact ⟨fun ⟨x, hx, hpx⟩ => ⟨x, hp.mem_iff.mp hx, hpx⟩,
        fun ⟨x, hx, hpx⟩ => ⟨x, hp.mem_iff.mpr hx, hpx⟩⟩
    unfold classify_channel
    simp only [hany]
  · intro ch fl l h
    by_cases hpar : truthyStr ch.parent_id
    · exact ⟨.thread, by simp [classify_channel, hpar]⟩
    · have hn : ch.name.isSome = true := by
        rcases h with h | h
        · exact absurd h hpar
        · exact h
      obtain ⟨n, hname⟩ := Option.isSome_iff_exists.mp hn
      by_cases hf : n ∈ fl
      · exact ⟨.forum, by simp [classify_channel, hpar, hname, hf]⟩
      · by_cases ha : l.any (fun c => c.parent_id == some n)
        · exact ⟨.forum, by simp [classify_channel, hpar, hname, hf, ha]⟩
        · exact ⟨.regular, by simp [classify_channel, hpar, hname, hf, ha]⟩

/-- Claim C10, witness:  Swapping two siblings leaves the classification
unchanged, and a named channel always receives a role. -/
theorem classify_channel_deterministic_total_witness :
    classify_channel ⟨some "1", some "general", none⟩ []
        [⟨some "2", some "qna", none⟩, ⟨some "3", some "idea", some "qna"⟩] =
      classify_channel ⟨some "1", some "general", none⟩ []
        [⟨some "3", some "idea", some "qna"⟩, ⟨some "2", some "qna", none⟩] ∧
    ∃ t, classify_channel ⟨some "1", some "general", none⟩ [] [] = .ok t :=
  ⟨classify_channel_deterministic_total.1 _ _ _ _ (List.Perm.swap _ _ _),
   classify_channel_deterministic_total.2 _ _ _ (Or.inr rfl)⟩

/-! ## Claim C8 — sanitiser length bounds -/

/-- Claim C8, counterexample:  With a supplied 94-character fallback id,
the fallback name `"thread-" + id` is 101 characters, exceeding the
claimed 100-character cap; and with a supplied *empty* fallback id, an
empty cleaned title is returned as-is (fewer than 3 characters, not
replaced by the id-based name). -/
theorem sanitize_thread_name_bounds_cex :
    100 < (sanitize_thread_name [] (some (List.replicate 94 'x'))).length ∧
    sanitize_thread_name [] (some []) = [] := by
  constructor
  · decide
  · rfl

/-- Claim C8 (amended):  With a *non-empty* fallback id the result is
either the cleaned title (then between 3 and 100 characters) or exactly
the wholesale replacement `"thread-" + id`; hence it never has fewer
than 3 characters, and its length is bounded by
`max 100 (7 + |id|)` — the 100-character cap holds whenever the
fallback id has at most 93 characters, but not in general. -/
theorem sanitize_thread_name_bounds (title : List Char) (tid : List Char) (h : tid ≠ []) :
    (sanitize_thread_name title (some tid) = "thread-".toList ++ tid ∨
      (sanitize_thread_name title (some tid) = cleanName title ∧
        3 ≤ (cleanName title).length)) ∧
    3 ≤ (sanitize_thread_name title (some tid)).length ∧
    (sanitize_thread_name title (some tid)).length ≤ max 100 (7 + tid.length) := by
  have h7 : ("thread-".toList).length = 7 := rfl
  have hclean : (cleanName title).length ≤ 100 := by
    simp only [cleanName, List.length_take]
    omega
  have htid : 1 ≤ tid.length := List.length_pos.mpr h
  by_cases hlt : (cleanName title).length < 3
  · have he : sanitize_thread_name title (some tid) = "thread-".toList ++ tid := by
      simp [sanitize_thread_name, hlt, h]
    refine ⟨.inl he, ?_, ?_⟩
    · rw [he, List.length_append, h7]
      omega
    · rw [he, List.length_append, h7]
      exact le_max_right _ _
  · have he : sanitize_thread_name title (some tid) = cleanName title := by
      simp [sanitize_thread_name, hlt]
    refine ⟨.inr ⟨he, by omega⟩, by rw [he]; omega,
      by rw [he]; exact le_trans hclean (le_max_left _ _)⟩

/-- Claim C8, witness:  A concrete title and a real numeric id. -/
theorem sanitize_thread_name_bounds_witness :
    3 ≤ (sanitize_thread_name "hello world!".toList (some "123".toList)).length ∧
    (sanitize_thread_name "hello world!".toList (some "123".toList)).length ≤
      max 100 (7 + "123".toList.length) :=
  ⟨(sanitize_thread_name_bounds "hello world!".toList "123".toList (by decide)).2.1,
   (sanitize_thread_name_bounds "hello world!".toList "123".toList (by decide)).2.2⟩

/-! ## Claim C9 — sanitiser idempotence

The cleaned name consists of `[a-z0-9-]` characters, has no adjacent
and no leading hyphen, and has at most 100 characters.  The one
property truncation can destroy is the *trailing*-hyphen freedom —
`name[:100]` runs after `strip("-")` — and that is exactly where
idempotence fails. -/

/-- No two adjacent hyphens. -/
def NoDD (a b : Char) : Prop := ¬(a = '-' ∧ b = '-')

theorem mem_collapseAux {c : Char} : ∀ {b : Bool} {l : List Char},
    c ∈ collapseAux b l → c ∈ l ∨ c = '-' := by
  intro b l
  induction l generalizing b with
  | nil => intro h; exact absurd h (List.not_mem_nil c)
  | cons d rest ih =>
    intro h
    by_cases hd : d = '-'
    · subst hd
      simp only [collapseAux, if_pos rfl] at h
      cases b with
      | true => rcases ih h with h' | h' <;> simp [h']
      | false =>
        rcases List.mem_cons.mp h with h' | h'
        · exact Or.inr h'
        · rcases ih h' with h'' | h'' <;> simp [h'']
    · simp only [collapseAux, if_neg hd] at h
      rcases List.mem_cons.mp h with h' | h'
      · exact Or.inl (by simp [h'])
      · rcases ih h' with h'' | h'' <;> simp [h'']

theorem head_collapseAux_true : ∀ l : List Char,
    (collapseAux true l).head? ≠ some '-' := by
  intro l
  induction l with
  | nil => simp [collapseAux]
  | cons d rest ih =>
    by_cases hd : d = '-'
    · subst hd
      show (collapseAux true rest).head? ≠ some '-'
      exact ih
    · simp [collapseAux, hd]

theorem chain_collapseAux : ∀ (b : Bool) (l : List Char),
    List.Chain' NoDD (collapseAux b l) := by
  intro b l
  induction l generalizing b with
  | nil => simp [collapseAux]
  | cons d rest ih =>
    by_cases hd : d = '-'
    · subst hd
      cases b with
      | true => simpa [collapseAux] using ih true
      | false =>
        simp only [collapseAux, if_pos rfl]
        refine List.chain'_cons'.mpr ⟨?_, ih true⟩
        intro y hy
        intro hcon
        exact head_collapseAux_true rest (by
          cases hh : (collapseAux true rest).head? with
          | none => simp [hh] at hy
          | some z => simp [hh] at hy; simp [hh, hy, hcon.2])
    · simp only [collapseAux, if_neg hd]
      refine List.chain'_cons'.mpr ⟨?_, ih false⟩
      intro y _
      exact fun hcon => hd hcon.1

theorem collapseAux_eq_self : ∀ (l : List Char) (b : Bool),
    List.Chain' NoDD l → (b = true → l.head? ≠ some '-') → collapseAux b l = l := by
  intro l
  induction l with
  | nil => intro b _ _; rfl
  | cons d rest ih =>
    intro b hc hb
    have hc' := List.chain'_cons'.mp hc
    by_cases hd : d = '-'
    · subst hd
      cases b with
      | true => exact absurd rfl (hb rfl)
      | false =>
        have hrest : rest.head? ≠ some '-' := by
          intro hh
          exact hc'.1 '-' (by simp [hh]) ⟨rfl, rfl⟩
        show '-' :: collapseAux true rest = '-' :: rest
        rw [ih true hc'.2 (fun _ => hrest)]
    · simp only [collapseAux, if_neg hd]
      rw [ih false hc'.2 (fun h => Bool.noConfusion h)]

theorem dropWhile_eq_self_head (p : Char → Bool) (l : List Char)
    (h : ∀ c, l.head? = some c → p c = false) : l.dropWhile p = l := by
  cases l with
  | nil => rfl
  | cons a t =>
    have := h a rfl
    simp [List.dropWhile_cons, this]

theorem head?_dropWhile_false (p : Char → Bool) (l : List Char) :
    ∀ c, (l.dropWhile p).head? = some c → p c = false := by
  induction l with
  | nil => intro c hc; simp at hc
  | cons a t ih =>
    intro c hc
    by_cases ha : p a
    · exact ih c (by simpa [List.dropWhile_cons, ha] using hc)
    · simp only [List.dropWhile_cons, ha, if_neg] at hc
      simp only [Bool.false_eq_true, if_false, List.head?_cons, Option.some.injEq] at hc
      subst hc
      simpa using ha

theorem pyLower_allowed {c : Char} (h : isAllowedChar c = true) : pyLower c = c := by
  simp only [isAllowedChar, Bool.or_eq_true, Bool.and_eq_true, decide_eq_true_eq,
    beq_iff_eq] at h
  rcases h with h | h
  rcases h with h | h
  · have : ¬(65 ≤ c.toNat ∧ c.toNat ≤ 90) := by omega
    simp [pyLower, this]
  · have : ¬(65 ≤ c.toNat ∧ c.toNat ≤ 90) := by omega
    simp [pyLower, this]
  · subst h; rfl

theorem allowed_stages {c : Char} (h : isAllowedChar c = true) :
    pyLower c = c ∧ (if c = ' ' then '-' else c) = c := by
  refine ⟨pyLower_allowed h, if_neg ?_⟩
  intro hc
  subst hc
  exact absurd h (by decide)

/-- Model of `NoDD` transported through `reverse`. -/
theorem chain_NoDD_reverse {l : List Char} (h : List.Chain' NoDD l) :
    List.Chain' NoDD l.reverse := by
  rw [List.chain'_reverse]
  exact h.imp (fun a b hab => fun hc => hab ⟨hc.2, hc.1⟩)

/-- The structural facts about a cleaned name, parameterised over the
already-filtered character list: all characters allowed, no adjacent
hyphens, no leading hyphen, length at most 100. -/
theorem stage_spec (x : List Char) (hall : ∀ c ∈ x, isAllowedChar c = true) :
    (∀ c ∈ (stripDashes (collapseAux false x)).take 100, isAllowedChar c = true) ∧
    List.Chain' NoDD ((stripDashes (collapseAux false x)).take 100) ∧
    ((stripDashes (collapseAux false x)).take 100).head? ≠ some '-' ∧
    ((stripDashes (collapseAux false x)).take 100).length ≤ 100 := by
  have hmemw : ∀ c ∈ collapseAux false x, isAllowedChar c = true := by
    intro c hc
    rcases mem_collapseAux hc with h | h
    · exact hall c h
    · subst h; decide
  have hstrip : ∀ c ∈ stripDashes (collapseAux false x), c ∈ collapseAux false x := by
    intro c hc
    unfold stripDashes at hc
    have hc1 := List.mem_reverse.mp hc
    have hc2 := (List.dropWhile_sublist (l := (collapseAux false x).dropWhile (· == '-')
      |>.reverse) (· == '-')).subset hc1
    have hc3 := List.mem_reverse.mp hc2
    exact (List.dropWhile_sublist (· == '-')).subset hc3
  have hcw : List.Chain' NoDD (collapseAux false x) := chain_collapseAux false x
  have hcu : List.Chain' NoDD ((collapseAux false x).dropWhile (· == '-')) :=
    List.Chain'.suffix hcw (List.dropWhile_suffix _)
  have hcv : List.Chain' NoDD
      (((collapseAux false x).dropWhile (· == '-')).reverse.dropWhile (· == '-')) :=
    List.Chain'.suffix (chain_NoDD_reverse hcu) (List.dropWhile_suffix _)
  have hcs : List.Chain' NoDD (stripDashes (collapseAux false x)) :=
    chain_NoDD_reverse hcv
  refine ⟨?_, List.Chain'.take hcs 100, ?_, by simp [List.length_take]⟩
  · intro c hc
    exact hmemw c (hstrip c (List.take_subset _ _ hc))
  · -- the head of the stripped name, if any, is the head of the
    -- leading-dash-free list, which is not a hyphen
    obtain ⟨t1, ht1⟩ : ∃ t1,
        t1 ++ ((collapseAux false x).dropWhile (· == '-')).reverse.dropWhile (· == '-') =
          ((collapseAux false x).dropWhile (· == '-')).reverse :=
      List.dropWhile_suffix (· == '-')
    have hu : (collapseAux false x).dropWhile (· == '-') =
        stripDashes (collapseAux false x) ++ t1.reverse := by
      have h2 := congrArg List.reverse ht1
      simpa [List.reverse_append, stripDashes] using h2.symm
    cases hv : stripDashes (collapseAux false x) with
    | nil => simp [hv]
    | cons a s' =>
      have hhead : ((collapseAux false x).dropWhile (· == '-')).head? = some a := by
        rw [hu, hv]
        rfl
      have hne := head?_dropWhile_false (· == '-') (collapseAux false x) a hhead
      have hane : a ≠ '-' := by simpa using hne
      have htk : (List.take 100 (a :: s')).head? = some a := rfl
      rw [htk]
      simpa using hane

theorem map_eq_self_of_mem {f : Char → Char} {l : List Char}
    (h : ∀ c ∈ l, f c = c) : l.map f = l := by
  induction l with
  | nil => rfl
  | cons a t ih => simp [h a (by simp), ih (fun c hc => h c (by simp [hc]))]

/-- The structural facts about `cleanName`. -/
theorem cleanName_spec (t : List Char) :
    (∀ c ∈ cleanName t, isAllowedChar c = true) ∧
    List.Chain' NoDD (cleanName t) ∧
    (cleanName t).head? ≠ some '-' ∧
    (cleanName t).length ≤ 100 := by
  have he : cleanName t =
      (stripDashes (collapseAux false
        (((t.map pyLower).map fun c => if c = ' ' then '-' else c).filter
          isAllowedChar))).take 100 := rfl
  rw [he]
  exact stage_spec _ (fun c hc => List.of_mem_filter hc)

/-- A title whose cleaned form is 102 characters with a hyphen in
position 100: truncation leaves a trailing hyphen. -/
def nonIdempotentTitle : List Char := List.replicate 99 'a' ++ "-bb".toList

/-- Claim C9, counterexample:  `sanitize` is *not* idempotent: for a title
of 99 `a`s followed by `-bb`, the first application truncates to 100
characters ending in a hyphen (truncation runs after hyphen-stripping),
and the second application strips that trailing hyphen, producing a
99-character result. -/
theorem sanitize_thread_name_not_idempotent_cex :
    sanitize_thread_name (sanitize_thread_name nonIdempotentTitle none) none ≠
      sanitize_thread_name nonIdempotentTitle none ∧
    (sanitize_thread_name nonIdempotentTitle none).getLast? = some '-' := by
  constructor
  · intro he
    have h99 : (sanitize_thread_name (sanitize_thread_name nonIdempotentTitle none)
        none).length = 99 := rfl
    rw [he] at h99
    have h100 : (sanitize_thread_name nonIdempotentTitle none).length = 100 := rfl
    rw [h100] at h99
    exact absurd h99 (by decide)
  · rfl

/-- Claim C9 (amended):  `sanitize(sanitize(x)) = sanitize(x)` holds
whenever `sanitize(x)` does not end in a hyphen — the only way it can
end in one is the 100-character truncation cutting a longer cleaned
name right after a hyphen, and then a second application strips it, as
in the counterexample. -/
theorem sanitize_thread_name_idempotent (title : List Char)
    (h : (sanitize_thread_name title none).getLast? ≠ some '-') :
    sanitize_thread_name (sanitize_thread_name title none) none =
      sanitize_thread_name title none := by
  obtain ⟨hall, hchain, hhead, hlen⟩ := cleanName_spec title
  have hy : sanitize_thread_name title none = cleanName title := rfl
  rw [hy] at h ⊢
  show cleanName (cleanName title) = cleanName title
  have h1 : (cleanName title).map pyLower = cleanName title :=
    map_eq_self_of_mem (fun c hc => (allowed_stages (hall c hc)).1)
  have h2 : (cleanName title).map (fun c => if c = ' ' then '-' else c) = cleanName title :=
    map_eq_self_of_mem (fun c hc => (allowed_stages (hall c hc)).2)
  have h3 : (cleanName title).filter isAllowedChar = cleanName title :=
    List.filter_eq_self.mpr hall
  have h4 : collapseAux false (cleanName title) = cleanName title :=
    collapseAux_eq_self _ false hchain (fun hb => Bool.noConfusion hb)
  have h5 : stripDashes (cleanName title) = cleanName title := by
    have e1 : (cleanName title).dropWhile (· == '-') = cleanName title :=
      dropWhile_eq_self_head _ _ (fun c hc =>
        beq_eq_false_iff_ne.mpr (fun hcc => hhead (by rw [hc, hcc])))
    have e2 : (cleanName title).reverse.dropWhile (· == '-') = (cleanName title).reverse :=
      dropWhile_eq_self_head _ _ (fun c hc => by
        have hg : (cleanName title).getLast? = some c := by
          rwa [List.head?_reverse] at hc
        exact beq_eq_false_iff_ne.mpr (fun hcc => h (by rw [hg, hcc])))
    rw [stripDashes, e1, e2, List.reverse_reverse]
  have h6 : (cleanName title).take 100 = cleanName title := List.take_of_length_le hlen
  calc cleanName (cleanName title)
      = (stripDashes (collapseAux false ((((cleanName title).map pyLower).map
          fun c => if c = ' ' then '-' else c).filter isAllowedChar))).take 100 := rfl
    _ = cleanName title := by rw [h1, h2, h3, h4, h5, h6]

/-- Claim C9, witness:  A concrete title on the idempotent side. -/
theorem sanitize_thread_name_idempotent_witness :
    (sanitize_thread_name "Hello World!".toList none).getLast? ≠ some '-' ∧
    sanitize_thread_name (sanitize_thread_name "Hello World!".toList none) none =
      sanitize_thread_name "Hello World!".toList none :=
  ⟨by decide, sanitize_thread_name_idempotent "Hello World!".toList (by decide)⟩

/-! ## Claim C6 — skipping filtered entities -/

/-- Claim C6, counterexample:  A thread that the exclude pattern rejects
is skipped with zero state mutation and no export invocation — but
*not* with zero directory creation: `_determine_export_location` runs
`thread_dir.mkdir(parents=True, exist_ok=True)` before the
include/exclude filter is consulted, so the excluded thread `secret`
still creates its forum directory `exports/srv/myforum`. -/
theorem filtered_thread_creates_directory_cex :
    should_include_channel "secret" ["*"] ["secret*"] = false ∧
    (process_single_channel (fun _ => (true, "")) ⟨["html"], false, false⟩ "tok" "srv"
      [] ⟨some "123", some "secret", some "myforum"⟩ .thread ["exports", "srv"]
      ["*"] ["secret*"] [] "2025-01-01T00:00:00+00:00").dirs =
      [["exports", "srv", "myforum"]] ∧
    (process_single_channel (fun _ => (true, "")) ⟨["html"], false, false⟩ "tok" "srv"
      [] ⟨some "123", some "secret", some "myforum"⟩ .thread ["exports", "srv"]
      ["*"] ["secret*"] [] "2025-01-01T00:00:00+00:00").dirs ≠ [] ∧
    (process_single_channel (fun _ => (true, "")) ⟨["html"], false, false⟩ "tok" "srv"
      [] ⟨some "123", some "secret", some "myforum"⟩ .thread ["exports", "srv"]
      ["*"] ["secret*"] [] "2025-01-01T00:00:00+00:00").state = [] ∧
    (process_single_channel (fun _ => (true, "")) ⟨["html"], false, false⟩ "tok" "srv"
      [] ⟨some "123", some "secret", some "myforum"⟩ .thread ["exports", "srv"]
      ["*"] ["secret*"] [] "2025-01-01T00:00:00+00:00").cmds = [] := by
  refine ⟨by decide, rfl, ?_, rfl, rfl⟩
  intro h
  exact List.noConfusion (show ([["exports", "srv", "myforum"]] : List (List String)) = [] from h)

/-- Claim C6 (amended):  An entity rejected by the include/exclude filters
is skipped with zero state mutation, zero export invocations and a zero
result tuple; for a *regular* channel no directory is created either,
but for a thread the forum directory has already been created by
`_determine_export_location` before the filter ran. -/
theorem filtered_entity_skipped
    (runExport : List String → Bool × String) (cfg : ExportCfg) (token server_key : String)
    (state : St) (channel : Channel) (channel_type : ChannelType) (server_dir : List String)
    (inc exc : List String) (cpm : List (String × String)) (now : String)
    (hname : truthyStr channel.name = true) (hid : truthyStr channel.id = true)
    (htype : channel_type ≠ .forum)
    (hskip : should_include_channel (channel.name.getD "") inc exc = false) :
    process_single_channel runExport cfg token server_key state channel channel_type
        server_dir inc exc cpm now =
      ⟨.ok (0, 0, 0, []), state,
        (determine_export_location channel channel_type (channel.id.getD "")
          server_dir cpm).2.2.2, []⟩ ∧
    (channel_type = .regular →
      (determine_export_location channel channel_type (channel.id.getD "")
        server_dir cpm).2.2.2 = []) := by
  constructor
  · unfold process_single_channel
    rw [if_neg (by simp [hname, hid])]
    rw [if_neg htype]
    rw [if_pos (by simp [hskip])]
  · intro ht
    subst ht
    rfl

/-- Claim C6, witness:  A concrete excluded regular channel: skipped with
no state change and no directory. -/
theorem filtered_entity_skipped_witness :
    process_single_channel (fun _ => (true, "")) ⟨["html"], false, false⟩ "tok" "srv"
        [] ⟨some "99", some "private-notes", none⟩ .regular ["exports", "srv"]
        ["*"] ["private-*"] [] "2025-01-01T00:00:00+00:00" =
      ⟨.ok (0, 0, 0, []), [],
        (determine_export_location ⟨some "99", some "private-notes", none⟩ .regular "99"
          ["exports", "srv"] []).2.2.2, []⟩ ∧
    (determine_export_location ⟨some "99", some "private-notes", none⟩ .regular "99"
      ["exports", "srv"] []).2.2.2 = [] :=
  ⟨(filtered_entity_skipped (fun _ => (true, "")) ⟨["html"], false, false⟩ "tok" "srv"
      [] ⟨some "99", some "private-notes", none⟩ .regular ["exports", "srv"]
      ["*"] ["private-*"] [] "2025-01-01T00:00:00+00:00" rfl rfl (by decide) (by decide)).1,
   (filtered_entity_skipped (fun _ => (true, "")) ⟨["html"], false, false⟩ "tok" "srv"
      [] ⟨some "99", some "private-notes", none⟩ .regular ["exports", "srv"]
      ["*"] ["private-*"] [] "2025-01-01T00:00:00+00:00" rfl rfl (by decide)
      (by decide)).2 rfl⟩

/-! ## Claim C2 — all-or-nothing state commit -/

theorem export_result_ok_zero (ctx : FmtCtx) :
    ∀ (fmts : List String) (c : Nat) (errs : List ErrEntry),
      export_result ctx fmts = .ok (c, 0, errs) →
      errs = [] ∧ c = fmts.length ∧ (export_cmds ctx fmts).length = fmts.length ∧
      ∀ cmd ∈ export_cmds ctx fmts, (ctx.runExport cmd).1 = true := by
  intro fmts
  induction fmts with
  | nil =>
    intro c errs h
    simp only [export_result, Except.ok.injEq, Prod.mk.injEq] at h
    exact ⟨h.2.2.symm, h.1.symm, rfl, by simp [export_cmds]⟩
  | cons fmt rest ih =>
    intro c errs h
    cases hcmd : loop_command ctx fmt with
    | error e =>
      simp only [export_result, hcmd] at h
      exact Except.noConfusion h
    | ok cmd0 =>
      simp only [export_result, hcmd] at h
      cases hr : export_result ctx rest with
      | error e => rw [hr] at h; simp at h
      | ok t =>
        obtain ⟨c0, f0, e0⟩ := t
        rw [hr] at h
        by_cases hs : (ctx.runExport cmd0).1
        · simp only [hs, if_true, Except.ok.injEq, Prod.mk.injEq] at h
          obtain ⟨hc, hf, he⟩ := h
          subst hf
          obtain ⟨ihe, ihc, ihl, ihall⟩ := ih c0 e0 hr
          have hcmds : export_cmds ctx (fmt :: rest) = cmd0 :: export_cmds ctx rest := by
            simp [export_cmds, hcmd]
          refine ⟨by rw [← he]; exact ihe, by simp only [List.length_cons]; omega, ?_, ?_⟩
          · rw [hcmds]
            simp [ihl]
          · intro cmd hcm
            rw [hcmds] at hcm
            rcases List.mem_cons.mp hcm with hcm | hcm
            · subst hcm; exact hs
            · exact ihall cmd hcm
        · simp only [hs, Bool.false_eq_true, if_false, Except.ok.injEq, Prod.mk.injEq] at h
          omega

theorem format_map_known : ∀ fmt ∈ (["html", "txt", "json", "csv"] : List String),
    ∃ ft, slookup format_map fmt = some ft ∧
      ft ∈ (["HtmlDark", "HtmlLight", "PlainText", "Json", "Csv"] : List String) := by
  intro fmt hf
  fin_cases hf
  · exact ⟨"HtmlDark", rfl, by decide⟩
  · exact ⟨"PlainText", rfl, by decide⟩
  · exact ⟨"Json", rfl, by decide⟩
  · exact ⟨"Csv", rfl, by decide⟩

theorem format_export_command_builds (token id path ftype : String)
    (after : Option String) (mc : Option MediaConfig)
    (hft : ftype ∈ (["HtmlDark", "HtmlLight", "PlainText", "Json", "Csv"] : List String))
    (h1 : id.toList ≠ []) (h2 : id.toList.all Char.isDigit = true) :
    ∃ cmd, format_export_command token id path ftype after mc = .ok cmd := by
  unfold format_export_command
  rw [if_neg (by simp [hft])]
  have hie : id.toList.isEmpty = false := by
    cases hl : id.toList with
    | nil => exact absurd hl h1
    | cons a t => rfl
  have hcond : (!(!id.toList.isEmpty && id.toList.all Char.isDigit)) = false := by
    rw [hie, h2]
    rfl
  have hnc : ¬ ((!(!id.toList.isEmpty && id.toList.all Char.isDigit)) = true) := by
    rw [hcond]
    exact Bool.false_ne_true
  rw [if_neg hnc]
  exact ⟨_, rfl⟩

theorem export_result_all_ok (ctx : FmtCtx)
    (hok : ∀ cmd, (ctx.runExport cmd).1 = true)
    (h1 : ctx.channel_id.toList ≠ []) (h2 : ctx.channel_id.toList.all Char.isDigit = true) :
    ∀ fmts, (∀ fmt ∈ fmts, fmt ∈ (["html", "txt", "json", "csv"] : List String)) →
      export_result ctx fmts = .ok (fmts.length, 0, []) := by
  intro fmts
  induction fmts with
  | nil => intro _; rfl
  | cons fmt rest ih =>
    intro hall
    obtain ⟨ft, hft, hftv⟩ := format_map_known fmt (hall fmt (by simp))
    obtain ⟨cmd, hcmd⟩ := format_export_command_builds ctx.token ctx.channel_id
      (pathStr ctx.export_dir ++ "/" ++ ctx.export_name ++ "." ++ fmt) ft
      ctx.after_timestamp (some (loop_media_config ctx)) hftv h1 h2
    have hloop : loop_command ctx fmt = .ok cmd := by
      simp only [loop_command, hft]
      exact hcmd
    simp only [export_result, hloop]
    rw [ih (fun f hf => hall f (by simp [hf]))]
    simp [hok cmd]

/-- Claim C2:  Per entity, the state commit is all-or-nothing: if the
state store changed at all, then every configured format was exported
(one successful invocation per format, no failures, no errors); and if
any issued invocation failed, the stored state after the call is
exactly the state before it. -/
theorem process_single_channel_all_or_nothing
    (runExport : List String → Bool × String) (cfg : ExportCfg) (token server_key : String)
    (state : St) (channel : Channel) (channel_type : ChannelType) (server_dir : List String)
    (inc exc : List String) (cpm : List (String × String)) (now : String) :
    ((process_single_channel runExport cfg token server_key state channel channel_type
        server_dir inc exc cpm now).state ≠ state →
      (process_single_channel runExport cfg token server_key state channel channel_type
          server_dir inc exc cpm now).result = .ok (cfg.formats.length, 1, 0, []) ∧
      (process_single_channel runExport cfg token server_key state channel channel_type
          server_dir inc exc cpm now).cmds.length = cfg.formats.length ∧
      ∀ cmd ∈ (process_single_channel runExport cfg token server_key state channel
          channel_type server_dir inc exc cpm now).cmds, (runExport cmd).1 = true) ∧
    ((∃ cmd ∈ (process_single_channel runExport cfg token server_key state channel
          channel_type server_dir inc exc cpm now).cmds, (runExport cmd).1 = false) →
      (process_single_channel runExport cfg token server_key state channel channel_type
        server_dir inc exc cpm now).state = state) := by
  unfold process_single_channel
  by_cases hb1 : (!truthyStr channel.name || !truthyStr channel.id) = true
  · rw [if_pos hb1]
    exact ⟨fun hne => absurd rfl hne, fun _ => rfl⟩
  · rw [if_neg hb1]
    by_cases hb2 : channel_type = .forum
    · rw [if_pos hb2]
      exact ⟨fun hne => absurd rfl hne, fun _ => rfl⟩
    · rw [if_neg hb2]
      by_cases hb3 : (!should_include_channel (channel.name.getD "") inc exc) = true
      · rw [if_pos hb3]
        exact ⟨fun hne => absurd rfl hne, fun _ => rfl⟩
      · rw [if_neg hb3]
        cases hts : get_last_export_timestamp state server_key channel_type
            (channel.name.getD "") (channel.id.getD "")
            (determine_export_location channel channel_type (channel.id.getD "")
              server_dir cpm).2.2.1 with
        | error e =>
          simp only [hts]
          exact ⟨fun hne => absurd rfl hne, by simp⟩
        | ok after =>
          simp only [hts]
          cases hres : export_result
              ⟨runExport, cfg, token, channel.id.getD "", channel.name.getD "",
                (determine_export_location channel channel_type (channel.id.getD "")
                  server_dir cpm).2.1,
                (determine_export_location channel channel_type (channel.id.getD "")
                  server_dir cpm).1, after⟩ cfg.formats with
          | error e =>
            simp only [hres]
            exact ⟨fun hne => absurd rfl hne, by simp⟩
          | ok t =>
            obtain ⟨c0, f0, e0⟩ := t
            simp only [hres]
            by_cases hf : f0 = 0
            · subst hf
              rw [if_pos rfl]
              obtain ⟨he, hc, hl, hall⟩ := export_result_ok_zero _ cfg.formats c0 e0 hres
              constructor
              · intro _
                exact ⟨by rw [he, hc], hl, hall⟩
              · intro ⟨cmd, hcm, hfail⟩
                exact absurd (hall cmd hcm) (by simp [hfail])
            · rw [if_neg hf]
              exact ⟨fun hne => absurd rfl hne, fun _ => rfl⟩

/-- Claim C2, witness:  One failing format (the export oracle always
fails) leaves an initially empty state empty. -/
theorem process_single_channel_all_or_nothing_witness :
    (∃ cmd ∈ (process_single_channel (fun _ => (false, "boom")) ⟨["html"], false, false⟩
        "tok" "srv" [] ⟨some "123", some "general", none⟩ .regular ["exports", "srv"]
        ["*"] [] [] "2025-01-01T00:00:00+00:00").cmds, ((fun (_ : List String) =>
          (false, "boom")) cmd).1 = false) ∧
    (process_single_channel (fun _ => (false, "boom")) ⟨["html"], false, false⟩
      "tok" "srv" [] ⟨some "123", some "general", none⟩ .regular ["exports", "srv"]
      ["*"] [] [] "2025-01-01T00:00:00+00:00").state = [] := by
  constructor
  · exact ⟨["bin/discord-exporter/DiscordChatExporter.Cli", "export", "-t", "tok", "-c",
      "123", "-f", "HtmlDark", "-o", "exports/srv/general.html"], by decide, rfl⟩
  · exact (process_single_channel_all_or_nothing (fun _ => (false, "boom"))
      ⟨["html"], false, false⟩ "tok" "srv" [] ⟨some "123", some "general", none⟩ .regular
      ["exports", "srv"] ["*"] [] [] "2025-01-01T00:00:00+00:00").2
      ⟨["bin/discord-exporter/DiscordChatExporter.Cli", "export", "-t", "tok", "-c",
        "123", "-f", "HtmlDark", "-o", "exports/srv/general.html"], by decide, rfl⟩

/-! ## Claim C7 — watermark round-trip -/

theorem get_channel_state_update (state : St) (server channel ts mid : String) :
    get_channel_state (update_channel state server channel ts mid) server channel =
      some (.obj [("last_export", .str ts), ("last_message_id", .str mid)]) := by
  unfold get_channel_state update_channel
  rw [jlookup_setField_self]
  simp [jlookupJ, J.fieldsD, jlookup_setField_self]

theorem get_thread_state_update (state : St) (server forum : String) (ti : ThreadInfo)
    (now : String) :
    get_thread_state (update_thread_state state server forum ti now) server forum
        ti.thread_id =
      some (.obj [("name", .str ti.thread_name), ("title", .str ti.thread_title),
        ("last_export", .str now),
        ("last_message_id",
          match ti.last_message_id with | some m => .str m | none => .null),
        ("archived", .bool ti.archived)]) := by
  unfold get_thread_state update_thread_state
  simp [jgetD, jlookupJ, J.fieldsD, jlookup_setField_self]

/-- After a committed export, reading the entity's stored watermark back
yields exactly the `now` stamp that was written. -/
theorem get_last_export_after_success (state : St) (server_key : String)
    (channel_type : ChannelType) (ci : ChannelInfo) (now : String) :
    get_last_export_timestamp
        (update_channel_state_after_export state server_key channel_type ci now)
        server_key channel_type ci.channel_name ci.channel_id ci.forum_name =
      .ok (some now) := by
  unfold update_channel_state_after_export get_last_export_timestamp
  by_cases h : channel_type = .thread
  · rw [if_pos h, if_pos h]
    rw [get_thread_state_update]
    rfl
  · rw [if_neg h, if_neg h]
    rw [get_channel_state_update]
    rfl

theorem format_export_command_after (token id path ftype a : String)
    (mc : Option MediaConfig) (cmd : List String)
    (h : format_export_command token id path ftype (some a) mc = .ok cmd) (ha : a ≠ "") :
    ∃ s t, s ++ ["--after", a] ++ t = cmd := by
  unfold format_export_command at h
  split_ifs at h
  dsimp only at h
  rw [if_neg ha] at h
  simp only [Except.ok.injEq] at h
  subst h
  cases mc with
  | none =>
    exact ⟨["bin/discord-exporter/DiscordChatExporter.Cli", "export", "-t", token, "-c",
      id, "-f", ftype, "-o", path], [], by simp⟩
  | some m =>
    by_cases hdm : m.download_media
    · simp only [hdm, if_true]
      exact ⟨["bin/discord-exporter/DiscordChatExporter.Cli", "export", "-t", token, "-c",
        id, "-f", ftype, "-o", path],
        "--media" :: ((match m.media_dir with
          | some d => ["--media-dir", d]
          | none => []) ++ (if m.reuse_media = true then ["--reuse-media"] else [])),
        by simp⟩
    · simp only [hdm, Bool.false_eq_true, if_false]
      exact ⟨["bin/discord-exporter/DiscordChatExporter.Cli", "export", "-t", token, "-c",
        id, "-f", ftype, "-o", path], [], by simp⟩

theorem export_cmds_after (ctx : FmtCtx) (a : String)
    (hctx : ctx.after_timestamp = some a) (ha : a ≠ "") :
    ∀ fmts, ∀ cmd ∈ export_cmds ctx fmts, ∃ s t, s ++ ["--after", a] ++ t = cmd := by
  intro fmts
  induction fmts with
  | nil => intro cmd hc; simp [export_cmds] at hc
  | cons fmt rest ih =>
    intro cmd hc
    cases hcmd : loop_command ctx fmt with
    | error e =>
      simp only [export_cmds, hcmd] at hc
      exact absurd hc (List.not_mem_nil cmd)
    | ok cmd0 =>
      simp only [export_cmds, hcmd] at hc
      rcases List.mem_cons.mp hc with hcm | hcm
      · subst hcm
        unfold loop_command at hcmd
        cases hk : slookup format_map fmt with
        | none => rw [hk] at hcmd; exact Except.noConfusion hcmd
        | some ft =>
          rw [hk, hctx] at hcmd
          exact format_export_command_after _ _ _ _ _ _ _ hcmd ha
      · exact ih cmd hcm

/-- The run equation for the committing branch of
`_process_single_channel`: well-formed record, non-forum, filter passes,
cutoff resolution succeeds, and the per-format loop reports zero
failures. -/
theorem process_single_channel_commit_eq
    (runExport : List String → Bool × String) (cfg : ExportCfg) (token server_key : String)
    (state : St) (channel : Channel) (channel_type : ChannelType) (server_dir : List String)
    (inc exc : List String) (cpm : List (String × String)) (now : String)
    (v : Option String) (n : Nat) (errs : List ErrEntry)
    (hname : truthyStr channel.name = true) (hid : truthyStr channel.id = true)
    (htype : channel_type ≠ .forum)
    (hinc : should_include_channel (channel.name.getD "") inc exc = true)
    (hts : get_last_export_timestamp state server_key channel_type (channel.name.getD "")
      (channel.id.getD "") (determine_export_location channel channel_type
        (channel.id.getD "") server_dir cpm).2.2.1 = .ok v)
    (hres : export_result
      ⟨runExport, cfg, token, channel.id.getD "", channel.name.getD "",
        (determine_export_location channel channel_type (channel.id.getD "")
          server_dir cpm).2.1,
        (determine_export_location channel channel_type (channel.id.getD "")
          server_dir cpm).1, v⟩ cfg.formats = .ok (n, 0, errs)) :
    process_single_channel runExport cfg token server_key state channel channel_type
        server_dir inc exc cpm now =
      ⟨.ok (n, 1, 0, errs),
        update_channel_state_after_export state server_key channel_type
          ⟨channel.id.getD "", channel.name.getD "",
            (determine_export_location channel channel_type (channel.id.getD "")
              server_dir cpm).1,
            (determine_export_location channel channel_type (channel.id.getD "")
              server_dir cpm).2.2.1⟩ now,
        (determine_export_location channel channel_type (channel.id.getD "")
          server_dir cpm).2.2.2,
        export_cmds ⟨runExport, cfg, token, channel.id.getD "", channel.name.getD "",
          (determine_export_location channel channel_type (channel.id.getD "")
            server_dir cpm).2.1,
          (determine_export_location channel channel_type (channel.id.getD "")
            server_dir cpm).1, v⟩ cfg.formats⟩ := by
  unfold process_single_channel
  rw [if_neg (by simp [hname, hid])]
  rw [if_neg htype]
  rw [if_neg (by simp [hinc])]
  simp only [hts, hres]
  rfl

/-- The commands a `_process_single_channel` call issues once it gets
past the filters and the cutoff resolution, whatever the per-format
outcomes. -/
theorem process_single_channel_cmds
    (runExport : List String → Bool × String) (cfg : ExportCfg) (token server_key : String)
    (state : St) (channel : Channel) (channel_type : ChannelType) (server_dir : List String)
    (inc exc : List String) (cpm : List (String × String)) (now : String) (v : Option String)
    (hname : truthyStr channel.name = true) (hid : truthyStr channel.id = true)
    (htype : channel_type ≠ .forum)
    (hinc : should_include_channel (channel.name.getD "") inc exc = true)
    (hts : get_last_export_timestamp state server_key channel_type (channel.name.getD "")
      (channel.id.getD "") (determine_export_location channel channel_type
        (channel.id.getD "") server_dir cpm).2.2.1 = .ok v) :
    (process_single_channel runExport cfg token server_key state channel channel_type
        server_dir inc exc cpm now).cmds =
      export_cmds ⟨runExport, cfg, token, channel.id.getD "", channel.name.getD "",
        (determine_export_location channel channel_type (channel.id.getD "")
          server_dir cpm).2.1,
        (determine_export_location channel channel_type (channel.id.getD "")
          server_dir cpm).1, v⟩ cfg.formats := by
  unfold process_single_channel
  rw [if_neg (by simp [hname, hid])]
  rw [if_neg htype]
  rw [if_neg (by simp [hinc])]
  simp only [hts]
  cases hres : export_result
      ⟨runExport, cfg, token, channel.id.getD "", channel.name.getD "",
        (determine_export_location channel channel_type (channel.id.getD "")
          server_dir cpm).2.1,
        (determine_export_location channel channel_type (channel.id.getD "")
          server_dir cpm).1, v⟩ cfg.formats with
  | error e => simp only [hres]
  | ok t =>
    simp only [hres]
    by_cases hf : t.2.1 = 0
    · rw [if_pos hf]
    · rw [if_neg hf]

/-- Claim C7:  After a run in which every configured format for an entity
succeeded, the stored watermark for that entity is present and equal to
the commit stamp `now1`; and the next run for the same entity passes
exactly that watermark as `--after` in every export invocation it
issues. -/
theorem watermark_roundtrip
    (runExport1 runExport2 : List String → Bool × String) (cfg : ExportCfg)
    (token server_key : String) (state : St) (channel : Channel)
    (channel_type : ChannelType) (server_dir : List String) (inc exc : List String)
    (cpm : List (String × String)) (now1 now2 : String)
    (hname : truthyStr channel.name = true) (hid : truthyStr channel.id = true)
    (htype : channel_type ≠ .forum)
    (hinc : should_include_channel (channel.name.getD "") inc exc = true)
    (hfmts : ∀ fmt ∈ cfg.formats, fmt ∈ (["html", "txt", "json", "csv"] : List String))
    (hdg1 : (channel.id.getD "").toList ≠ [])
    (hdg2 : (channel.id.getD "").toList.all Char.isDigit = true)
    (hok : ∀ cmd, (runExport1 cmd).1 = true)
    (hts : ∃ v, get_last_export_timestamp state server_key channel_type
      (channel.name.getD "") (channel.id.getD "")
      (determine_export_location channel channel_type (channel.id.getD "")
        server_dir cpm).2.2.1 = .ok v)
    (hnow : now1 ≠ "") :
    get_last_export_timestamp
        (process_single_channel runExport1 cfg token server_key state channel channel_type
          server_dir inc exc cpm now1).state
        server_key channel_type (channel.name.getD "") (channel.id.getD "")
        (determine_export_location channel channel_type (channel.id.getD "")
          server_dir cpm).2.2.1 = .ok (some now1) ∧
    ∀ cmd ∈ (process_single_channel runExport2 cfg token server_key
        (process_single_channel runExport1 cfg token server_key state channel channel_type
          server_dir inc exc cpm now1).state
        channel channel_type server_dir inc exc cpm now2).cmds,
      ∃ s t, s ++ ["--after", now1] ++ t = cmd := by
  obtain ⟨v, hv⟩ := hts
  have hres1 : export_result
      ⟨runExport1, cfg, token, channel.id.getD "", channel.name.getD "",
        (determine_export_location channel channel_type (channel.id.getD "")
          server_dir cpm).2.1,
        (determine_export_location channel channel_type (channel.id.getD "")
          server_dir cpm).1, v⟩ cfg.formats = .ok (cfg.formats.length, 0, []) :=
    export_result_all_ok _ hok hdg1 hdg2 cfg.formats hfmts
  have heq1 := process_single_channel_commit_eq runExport1 cfg token server_key state
    channel channel_type server_dir inc exc cpm now1 v cfg.formats.length [] hname hid
    htype hinc hv hres1
  have hread := get_last_export_after_success state server_key channel_type
    ⟨channel.id.getD "", channel.name.getD "",
      (determine_export_location channel channel_type (channel.id.getD "")
        server_dir cpm).1,
      (determine_export_location channel channel_type (channel.id.getD "")
        server_dir cpm).2.2.1⟩ now1
  constructor
  · rw [heq1]
    exact hread
  · intro cmd hcmd
    rw [heq1] at hcmd
    have hcmds2 := process_single_channel_cmds runExport2 cfg token server_key
      (update_channel_state_after_export state server_key channel_type
        ⟨channel.id.getD "", channel.name.getD "",
          (determine_export_location channel channel_type (channel.id.getD "")
            server_dir cpm).1,
          (determine_export_location channel channel_type (channel.id.getD "")
            server_dir cpm).2.2.1⟩ now1)
      channel channel_type server_dir inc exc cpm now2 (some now1) hname hid htype hinc
      hread
    rw [hcmds2] at hcmd
    exact export_cmds_after _ now1 rfl hnow cfg.formats cmd hcmd

/-- Claim C7, witness:  Empty prior state, channel `general`, one format,
an always-succeeding export: the first run stores the stamp and the
second run passes it as `--after`. -/
theorem watermark_roundtrip_witness :
    get_last_export_timestamp
        (process_single_channel (fun _ => (true, "")) ⟨["html"], false, false⟩ "tok" "srv"
          [] ⟨some "123", some "general", none⟩ .regular ["exports", "srv"]
          ["*"] [] [] "2025-01-15T15:00:00+00:00").state
        "srv" .regular "general" "123"
        (determine_export_location ⟨some "123", some "general", none⟩ .regular "123"
          ["exports", "srv"] []).2.2.1 = .ok (some "2025-01-15T15:00:00+00:00") ∧
    ∀ cmd ∈ (process_single_channel (fun _ => (true, "")) ⟨["html"], false, false⟩ "tok"
        "srv"
        (process_single_channel (fun _ => (true, "")) ⟨["html"], false, false⟩ "tok" "srv"
          [] ⟨some "123", some "general", none⟩ .regular ["exports", "srv"]
          ["*"] [] [] "2025-01-15T15:00:00+00:00").state
        ⟨some "123", some "general", none⟩ .regular ["exports", "srv"]
        ["*"] [] [] "2025-01-16T15:00:00+00:00").cmds,
      ∃ s t, s ++ ["--after", "2025-01-15T15:00:00+00:00"] ++ t = cmd :=
  watermark_roundtrip (fun _ => (true, "")) (fun _ => (true, "")) ⟨["html"], false, false⟩
    "tok" "srv" [] ⟨some "123", some "general", none⟩ .regular ["exports", "srv"]
    ["*"] [] [] "2025-01-15T15:00:00+00:00" "2025-01-16T15:00:00+00:00"
    rfl rfl (by decide) (by decide) (by decide) (by decide) (by decide)
    (fun _ => rfl) ⟨none, rfl⟩ (by decide)

end WaferSpace
